import Mathlib

/-
Verification of the contiguous physical-memory frame allocator in
src/MP2_Sources_updated/cont_frame_pool.C.

The allocator tracks, per frame, one of three byte states in a one-byte-per-frame
bitmap: 0xFF (FREE), 0x77 (HEAD_OF_SEQUENCE) and 0xAA (ALLOCATED).  The
constructor also writes the byte 0x0 for the self-hosted info frame and
mark_inaccessible writes the byte 0x80; both bytes are outside the three
documented states.  The target platform of this kernel assignment is 32-bit x86,
so `unsigned int` and `unsigned long` are both 32 bits wide; counter arithmetic
is therefore carried out modulo 2 to the 32.

The bitmap is embedded as a total function from byte offsets to byte values so
that the out-of-range reads and writes the source performs (the release walk,
the constructor with an external info frame) are expressible.  Loops become
structural recursions; the release walk, whose loop condition in the source is a
tautology, takes an explicit fuel argument and reports through a Bool flag
whether the loop ever exited (it never does).
-/

namespace ContFramePool

/-- Modelled from the spec: the constant FRAME_SIZE is declared in
cont_frame_pool.H, which is not among the sources; the spec fixes the frame
size as supplied by the surrounding kernel, for example 4096 bytes. -/
def FRAME_SIZE : Nat := 4096

/-- Byte value the source uses for a free frame (0xFF). -/
def FREE : Nat := 0xFF

/-- Byte value the source uses for the first frame of an allocated run (0x77). -/
def HEAD : Nat := 0x77

/-- Byte value the source uses for a non-first allocated frame (0xAA). -/
def ALLOC : Nat := 0xAA

/-- Word size of the 32-bit target: 2 to the 32. -/
def U32 : Nat := 4294967296

/-- Decrement of an unsigned 32-bit counter, as in `nFreeFrames--`. -/
def dec32 (x : Nat) : Nat := (x + (U32 - 1)) % U32

/-- Increment of an unsigned 32-bit counter, as in `nFreeFrames++`. -/
def inc32 (x : Nat) : Nat := (x + 1) % U32

/-- Byte store: writing value v at offset i of memory m. -/
def wr (m : Nat → Nat) (i v : Nat) : Nat → Nat :=
  fun j => if j = i then v else m j

/-- State of one ContFramePool object: the fields base_frame_no, nframes,
nFreeFrames, info_frame_no, n_info_frames of the class, together with the byte
region the member `bitmap` points to. -/
structure Pool where
  base_frame_no : Nat
  nframes : Nat
  nFreeFrames : Nat
  info_frame_no : Nat
  n_info_frames : Nat
  bitmap : Nat → Nat

/-- Embeds the constructor `ContFramePool::ContFramePool`.  `m0` is the
arbitrary prior content of the memory region the bitmap pointer addresses.
Returns none when `assert(_n_frames <= FRAME_SIZE * 8)` fails.  Mirrors the
source order: all fields set, every offset below n_frames marked 0xFF, then for
a self-hosted info frame (info = 0) offset 0 is set to the byte 0x0 and the
counter decremented, and finally the loop
`for (i = cont_info; i <= cont_info + n_info_frames - 1; i++)` re-marks the
info frames 0xFF while decrementing nFreeFrames once per frame.  The
registration in the static pool list is modelled by registerPool, and the
console output is ignored. -/
def construct (m0 : Nat → Nat) (base n info ninfo : Nat) : Option Pool :=
  if n ≤ FRAME_SIZE * 8 then
    let m1 := List.foldl (fun m i => wr m i FREE) m0 (List.range n)
    let free1 := if info = 0 then dec32 n else n
    let m2 := if info = 0 then wr m1 0 0x0 else m1
    let cont := if info = 0 then 1 else info
    let r := List.foldl (fun q k => (dec32 q.1, wr q.2 (cont + k) FREE))
      ((free1, m2) : Nat × (Nat → Nat)) (List.range ninfo)
    some (Pool.mk base n r.1 info ninfo r.2)
  else none

/-- Embeds the append of the freshly constructed pool at the tail of the
static singly linked list rooted at pool_head. -/
def registerPool (reg : List Pool) (p : Pool) : List Pool := reg ++ [p]

/-- Embeds the inner `while (counter > 1)` loop of the success branch of
get_frames: starting just after frame_head = fh with the loop counter c, it
marks the following c - 1 offsets 0xAA and decrements nFreeFrames once per
marked frame.  Returns the final memory and counter. -/
def markRest : Nat → (Nat → Nat) → Nat → Nat → (Nat → Nat) × Nat
  | 0, m, free, _ => (m, free)
  | 1, m, free, _ => (m, free)
  | c + 2, m, free, fh => markRest (c + 1) (wr m (fh + 1) ALLOC) (dec32 free) (fh + 1)

/-- Embeds the success branch of get_frames at frame_head = fh with loop
counter c: `bitmap[frame_head] = 0x77; nFreeFrames--;` the while loop via
markRest, and the returned value `frame_number`, which the source accumulates
in the 32-bit local `unsigned int frame_number = base_frame_no`. -/
def allocHere (p : Pool) (fh c : Nat) : Pool × Nat :=
  (Pool.mk p.base_frame_no p.nframes
    (markRest c (wr p.bitmap fh HEAD) (dec32 p.nFreeFrames) fh).2
    p.info_frame_no p.n_info_frames
    (markRest c (wr p.bitmap fh HEAD) (dec32 p.nFreeFrames) fh).1,
   (p.base_frame_no % U32 + fh) % U32)

/-- Embeds the scan loop `for (i = 0; i < nframes - 1; i++)` of get_frames.
The fuel argument counts the iterations that remain, so the loop bound
`i < nframes - 1` corresponds to fuel = nframes - 1 - i; get_frames starts the
scan with fuel = nframes - 1 and i = 0.  Per iteration: a free frame extends
the current run (recording frame_head when the run starts), a non-free frame
resets the counter to 0, and immediately afterwards `if (counter == n_frames)`
triggers the success branch allocHere. -/
def scanGo (p : Pool) (n : Nat) : Nat → Nat → Nat → Nat → Pool × Nat
  | 0, _, _, _ => (p, 0)
  | fuel + 1, i, fh, counter =>
    if p.bitmap i = FREE then
      if counter + 1 = n then allocHere p (if counter = 0 then i else fh) n
      else scanGo p n fuel (i + 1) (if counter = 0 then i else fh) (counter + 1)
    else
      if 0 = n then allocHere p fh 0
      else scanGo p n fuel (i + 1) fh 0

/-- Embeds `ContFramePool::get_frames`: the guard
`if (nFreeFrames == 0 || nFreeFrames < _n_frames) return 0;` followed by the
scan.  Returns the pool state after the call together with the returned frame
number. -/
def get_frames (p : Pool) (n : Nat) : Pool × Nat :=
  if p.nFreeFrames = 0 ∨ p.nFreeFrames < n then (p, 0)
  else scanGo p n (p.nframes - 1) 0 0 0

/-- Embeds the single-frame `ContFramePool::mark_inaccessible(_frame_no)`:
asserts the frame lies in range (none on failure), writes the byte 0x80 and
decrements nFreeFrames without checking the prior state. -/
def mark_inaccessible_one (p : Pool) (f : Nat) : Option Pool :=
  if p.base_frame_no ≤ f ∧ f < p.base_frame_no + p.nframes then
    some (Pool.mk p.base_frame_no p.nframes (dec32 p.nFreeFrames)
      p.info_frame_no p.n_info_frames (wr p.bitmap (f - p.base_frame_no) 0x80))
  else none

/-- Embeds the range form `ContFramePool::mark_inaccessible(_base_frame_no,
_n_frames)`, which calls the single form on each frame of the range. -/
def mark_inaccessible (p : Pool) (base n : Nat) : Option Pool :=
  List.foldlM (fun q k => mark_inaccessible_one q (base + k)) p (List.range n)

/-- Embeds the forward walk of `ContFramePool::release_frames`:
`while (tBitmap[position] != 0xFF || tBitmap[position] != 0x77) { tBitmap[position] = 0xFF; position++; temp->nFreeFrames++; }`.
The loop condition is written exactly as in the source.  The fuel argument
bounds how many iterations are simulated; the Bool of the result is true when
the loop exited by its own condition within the given fuel and false when the
fuel ran out first.  The memory and counter of the result are the state reached
so far. -/
def releaseWalk : Nat → (Nat → Nat) → Nat → Nat → ((Nat → Nat) × Nat) × Bool
  | 0, m, free, _ => ((m, free), false)
  | fuel + 1, m, free, pos =>
    if m pos ≠ FREE ∨ m pos ≠ HEAD then
      releaseWalk fuel (wr m pos FREE) (inc32 free) (pos + 1)
    else ((m, free), true)

/-- Embeds the body of release_frames once the owning pool has been selected:
`tBitmap[position] = 0xFF; position++; temp->nFreeFrames++;` followed by the
walk.  The Bool of the result is the termination flag of the walk. -/
def releaseInPool (p : Pool) (f fuel : Nat) : Pool × Bool :=
  let r := releaseWalk fuel (wr p.bitmap (f - p.base_frame_no) FREE)
    (inc32 p.nFreeFrames) (f - p.base_frame_no + 1)
  (Pool.mk p.base_frame_no p.nframes r.1.2 p.info_frame_no p.n_info_frames r.1.1, r.2)

/-- Embeds the owning-pool test of release_frames, written exactly as in the
source: `_first_frame_no >= baseFrame && _first_frame_no <= (baseFrame + numFrame)`. -/
def ownerMatch (p : Pool) (f : Nat) : Bool :=
  decide (p.base_frame_no ≤ f) && decide (f ≤ p.base_frame_no + p.nframes)

/-- Embeds the static `ContFramePool::release_frames(_first_frame_no)`: walk
the registered pools in order, delegate to releaseInPool on the first pool
whose ownerMatch holds and break; when no pool matches the loop ends and the
function returns with no effect and no error.  The Bool of the result is true
when the call actually returned and false when it was still stuck in the
release walk after fuel iterations. -/
def release_frames : List Pool → Nat → Nat → List Pool × Bool
  | [], _, _ => ([], true)
  | p :: rest, f, fuel =>
    if ownerMatch p f then
      let r := releaseInPool p f fuel
      (r.1 :: rest, r.2)
    else
      let r := release_frames rest f fuel
      (p :: r.1, r.2)

/-- Embeds `ContFramePool::needed_info_frames`:
`_n_frames / FRAME_SIZE + (_n_frames % FRAME_SIZE > 0 ? 1 : 0)`. -/
def needed_info_frames (n : Nat) : Nat :=
  n / FRAME_SIZE + (if n % FRAME_SIZE > 0 then 1 else 0)

/-- Number of frames of the pool whose stored byte is FREE. -/
def countFree (p : Pool) : Nat :=
  List.countP (fun i => p.bitmap i == FREE) (List.range p.nframes)

/-- Concrete pool for the release claims: base frame 1, four frames, offset 0
in state HEAD_OF_SEQUENCE and offsets 1 to 3 FREE; bytes beyond the pool are 0. -/
def relPool : Pool :=
  Pool.mk 1 4 3 100 0 (fun j => if j = 0 then HEAD else if j < 4 then FREE else 0)

/-- Concrete pool for the round-trip claim: base frame 1, four frames, all FREE. -/
def rtPool : Pool := Pool.mk 1 4 4 100 0 (fun j => if j < 4 then FREE else 0)

/-- State and return value of get_frames(1) on rtPool. -/
def rtAlloc : Pool × Nat := get_frames rtPool 1

/-- Concrete pool for the allocation-success claim: base frame 5, four frames,
offset 0 HEAD_OF_SEQUENCE, offsets 1 to 3 FREE. -/
def cpool3 : Pool :=
  Pool.mk 5 4 3 100 0 (fun j => if j = 0 then HEAD else if j < 4 then FREE else 0)

/-- Concrete pool for the failure claims: base frame 1, four frames, offset 0
HEAD_OF_SEQUENCE, offset 1 ALLOCATED, offsets 2 and 3 FREE, two free frames. -/
def cpool4 : Pool :=
  Pool.mk 1 4 2 100 0
    (fun j => if j = 0 then HEAD else if j = 1 then ALLOC else if j < 4 then FREE else 0)

/-- Pool state after construction over frames 1 to 4 with an external info
frame and a successful get_frames(2), which allocates the first two frames and
leaves the final two frames as the only free run. -/
def c5pool : Option Pool :=
  Option.map (fun p => (get_frames p 2).1) (construct (fun _ => 0) 1 4 100 0)

/-- First registered pool for the isolation claim: frames 0 to 9, five frames
counted free, all ten bytes FREE, bytes beyond the pool 0. -/
def poolB : Pool := Pool.mk 0 10 5 100 0 (fun j => if j < 10 then FREE else 0)

/-- Second registered pool for the isolation claim: frames 10 to 19, offset 0
HEAD_OF_SEQUENCE, the rest FREE. -/
def poolA : Pool :=
  Pool.mk 10 10 9 100 0 (fun j => if j = 0 then HEAD else if j < 10 then FREE else 0)

lemma wr_at (m : Nat → Nat) (i v : Nat) : wr m i v i = v := by
  simp [wr]

lemma wr_ne (m : Nat → Nat) (i v j : Nat) (h : j ≠ i) : wr m i v j = m j := by
  simp [wr, h]

lemma dec32_eq (x : Nat) (h1 : 1 ≤ x) (h2 : x < U32) : dec32 x = x - 1 := by
  have h2b : x < 4294967296 := h2
  simp only [dec32, U32]
  omega

/-- The loop condition of the release walk is a tautology: no byte is at the
same time equal to 0xFF and to 0x77. -/
lemma release_guard_true (b : Nat) : b ≠ FREE ∨ b ≠ HEAD := by
  by_cases h : b = FREE
  · right
    rw [h]
    decide
  · left
    exact h

/-- Because its condition is a tautology, the release walk never exits by its
own condition, for any fuel, memory and position. -/
lemma releaseWalk_not_done :
    ∀ (fuel : Nat) (m : Nat → Nat) (free pos : Nat),
      (releaseWalk fuel m free pos).2 = false := by
  intro fuel
  induction fuel with
  | zero => intro m free pos; rfl
  | succ k ih =>
    intro m free pos
    rw [releaseWalk, if_pos (release_guard_true (m pos))]
    exact ih _ _ _

/-- The local release never returns, for any pool, frame and fuel. -/
lemma releaseInPool_not_done (p : Pool) (f fuel : Nat) :
    (releaseInPool p f fuel).2 = false := by
  simp [releaseInPool, releaseWalk_not_done]

lemma markRest_fst :
    ∀ (c : Nat) (m : Nat → Nat) (free fh j : Nat),
      (markRest c m free fh).1 j = if fh + 1 ≤ j ∧ j ≤ fh + c - 1 then ALLOC else m j := by
  intro c
  induction c with
  | zero =>
    intro m free fh j
    rw [markRest, if_neg (by omega)]
  | succ k ih =>
    intro m free fh j
    cases k with
    | zero => rw [markRest, if_neg (by omega)]
    | succ c =>
      rw [markRest, ih]
      by_cases hj : j = fh + 1
      · rw [if_neg (by omega), if_pos (by omega), hj, wr_at]
      · by_cases hin : fh + 1 ≤ j ∧ j ≤ fh + (c + 2) - 1
        · rw [if_pos (by omega), if_pos hin]
        · rw [if_neg (by omega), if_neg hin, wr_ne _ _ _ _ hj]

lemma markRest_snd :
    ∀ (c : Nat) (m : Nat → Nat) (free fh : Nat), c ≤ free + 1 → free < U32 →
      (markRest c m free fh).2 = free - (c - 1) := by
  intro c
  induction c with
  | zero =>
    intro m free fh _ _
    rw [markRest]
    omega
  | succ k ih =>
    intro m free fh hc hw
    cases k with
    | zero =>
      rw [markRest]
      omega
    | succ c =>
      rw [markRest]
      have hfree1 : 1 ≤ free := by omega
      have hd : dec32 free = free - 1 := dec32_eq free hfree1 hw
      rw [hd] at *
      rw [ih _ (free - 1) _ (by omega) (by omega)]
      omega

/-- Characterization of the allocation scan.  Running the scan from position i
with the stated loop invariants (the current run of counter consecutive FREE
frames ends just before i, frame_head points at its start, and no window of n
FREE frames ends at or before i), the scan either fails, returning the pool
unchanged with value 0 and showing that no window of n FREE frames fits inside
the scanned range, or succeeds at the least offset h0 that starts n consecutive
FREE frames, marking h0 HEAD_OF_SEQUENCE, the next n - 1 offsets ALLOCATED and
taking exactly n off the free counter. -/
lemma scanGo_spec (p : Pool) (n : Nat) (hn : 1 ≤ n) (hfn : n ≤ p.nFreeFrames)
    (hfw : p.nFreeFrames < U32) (hb : p.base_frame_no + p.nframes < U32) :
    ∀ (fuel i fh counter : Nat),
      fuel + i = p.nframes - 1 →
      counter ≤ i →
      counter < n →
      (∀ k, i - counter ≤ k → k < i → p.bitmap k = FREE) →
      (counter = i ∨ p.bitmap (i - counter - 1) ≠ FREE) →
      (0 < counter → fh = i - counter) →
      (∀ h, h + n ≤ i → ∃ k, k < n ∧ p.bitmap (h + k) ≠ FREE) →
      (scanGo p n fuel i fh counter = (p, 0) ∧
        ∀ h, h + n ≤ p.nframes - 1 → ∃ k, k < n ∧ p.bitmap (h + k) ≠ FREE) ∨
      (∃ h0,
        h0 + n ≤ p.nframes - 1 ∧
        (∀ k, k < n → p.bitmap (h0 + k) = FREE) ∧
        (∀ h1, h1 < h0 → ∃ k, k < n ∧ p.bitmap (h1 + k) ≠ FREE) ∧
        (scanGo p n fuel i fh counter).2 = p.base_frame_no + h0 ∧
        (scanGo p n fuel i fh counter).1.bitmap h0 = HEAD ∧
        (∀ k, 1 ≤ k → k < n → (scanGo p n fuel i fh counter).1.bitmap (h0 + k) = ALLOC) ∧
        (scanGo p n fuel i fh counter).1.nFreeFrames + n = p.nFreeFrames) := by
  intro fuel
  induction fuel with
  | zero =>
    intro i fh counter hrel hci hcn hcons hbd hfh hwin
    left
    refine ⟨rfl, fun h hh => hwin h (by omega)⟩
  | succ fuel ih =>
    intro i fh counter hrel hci hcn hcons hbd hfh hwin
    by_cases hfree : p.bitmap i = FREE
    · by_cases hsucc : counter + 1 = n
      · -- the run reaches length n at position i: success branch
        right
        have hstep : scanGo p n (fuel + 1) i fh counter
            = allocHere p (if counter = 0 then i else fh) n := by
          rw [scanGo, if_pos hfree, if_pos hsucc]
        have hfh2 : (if counter = 0 then i else fh) = i + 1 - n := by
          by_cases hc : counter = 0
          · rw [if_pos hc]; omega
          · rw [if_neg hc, hfh (by omega)]; omega
        rw [hfh2] at hstep
        refine ⟨i + 1 - n, by omega, ?_, ?_, ?_, ?_, ?_, ?_⟩
        · -- the window [i+1-n, i+1) is all FREE
          intro k hk
          by_cases hlast : k = n - 1
          · have hik : i + 1 - n + k = i := by omega
            rw [hik]; exact hfree
          · exact hcons _ (by omega) (by omega)
        · -- minimality: every earlier window contains a non-free frame
          intro h1 hh1
          exact hwin h1 (by omega)
        · -- returned value
          rw [hstep]
          simp only [allocHere]
          have hb1 : p.base_frame_no % U32 = p.base_frame_no :=
            Nat.mod_eq_of_lt (by simp only [U32] at hb ⊢; omega)
          rw [hb1]
          exact Nat.mod_eq_of_lt (by simp only [U32] at hb ⊢; omega)
        · -- the head frame is marked HEAD
          rw [hstep]
          simp only [allocHere]
          rw [markRest_fst, if_neg (by omega), wr_at]
        · -- the trailing frames are marked ALLOC
          intro k hk1 hk2
          rw [hstep]
          simp only [allocHere]
          rw [markRest_fst, if_pos (by omega)]
        · -- the free counter dropped by exactly n
          rw [hstep]
          simp only [allocHere]
          have hd : dec32 p.nFreeFrames = p.nFreeFrames - 1 :=
            dec32_eq _ (by omega) hfw
          rw [hd, markRest_snd n _ _ _ (by omega) (by omega)]
          omega
      · -- the run continues: step to i + 1
        have hstep : scanGo p n (fuel + 1) i fh counter
            = scanGo p n fuel (i + 1) (if counter = 0 then i else fh) (counter + 1) := by
          rw [scanGo, if_pos hfree, if_neg hsucc]
        rw [hstep]
        apply ih (i + 1) (if counter = 0 then i else fh) (counter + 1)
          (by omega) (by omega) (by omega)
        · intro k hk1 hk2
          by_cases hki : k = i
          · rw [hki]; exact hfree
          · exact hcons k (by omega) (by omega)
        · rcases hbd with hbd | hbd
          · left; omega
          · right
            have : i + 1 - (counter + 1) - 1 = i - counter - 1 := by omega
            rw [this]; exact hbd
        · intro _
          by_cases hc : counter = 0
          · rw [if_pos hc]; omega
          · rw [if_neg hc, hfh (by omega)]; omega
        · intro h hh
          by_cases hold : h + n ≤ i
          · exact hwin h hold
          · -- the window ends exactly at i + 1
            have hhi : h + n = i + 1 := by omega
            rcases hbd with hbd | hbd
            · -- the free run starts at offset 0, so the window would need n ≤ i + 1,
              -- impossible since counter + 1 < n and counter = i
              exfalso; omega
            · refine ⟨i - counter - 1 - h, by omega, ?_⟩
              have : h + (i - counter - 1 - h) = i - counter - 1 := by omega
              rw [this]; exact hbd
    · -- non-free frame: counter resets to 0
      have hstep : scanGo p n (fuel + 1) i fh counter = scanGo p n fuel (i + 1) fh 0 := by
        rw [scanGo, if_neg hfree, if_neg (by omega)]
      rw [hstep]
      apply ih (i + 1) fh 0 (by omega) (by omega) (by omega)
      · intro k hk1 hk2
        exact absurd hk2 (by omega)
      · right
        have : i + 1 - 0 - 1 = i := by omega
        rw [this]; exact hfree
      · intro h
        exact absurd h (by omega)
      · intro h hh
        by_cases hold : h + n ≤ i
        · exact hwin h hold
        · have hhi : h + n = i + 1 := by omega
          refine ⟨i - h, by omega, ?_⟩
          have : h + (i - h) = i := by omega
          rw [this]; exact hfree

lemma get_frames_guard_false {p : Pool} {n : Nat}
    (h : ¬(p.nFreeFrames = 0 ∨ p.nFreeFrames < n)) :
    get_frames p n = scanGo p n (p.nframes - 1) 0 0 0 := by
  rw [get_frames, if_neg h]

/-- C3: for every pool and every n ≥ 1, if get_frames(n) returns a nonzero
value f, then f is the global frame number base_frame_no + h0 of the first (=
least-offset) run of n contiguous FREE frames in the pool, after the call the
frames at offsets h0 to h0 + n - 1 are exactly one HEAD_OF_SEQUENCE followed by
n - 1 ALLOCATED frames, and nFreeFrames decreased by exactly n. -/
theorem get_frames_success_spec (p : Pool) (n : Nat)
    (hn : 1 ≤ n) (hnf : 1 ≤ p.nframes)
    (hfw : p.nFreeFrames < U32) (hb : p.base_frame_no + p.nframes < U32)
    (hne : (get_frames p n).2 ≠ 0) :
    ∃ h0,
      (get_frames p n).2 = p.base_frame_no + h0 ∧
      h0 + n ≤ p.nframes ∧
      (∀ k, k < n → p.bitmap (h0 + k) = FREE) ∧
      (∀ h1, h1 < h0 → ∃ k, k < n ∧ p.bitmap (h1 + k) ≠ FREE) ∧
      (get_frames p n).1.bitmap h0 = HEAD ∧
      (∀ k, 1 ≤ k → k < n → (get_frames p n).1.bitmap (h0 + k) = ALLOC) ∧
      (get_frames p n).1.nFreeFrames + n = p.nFreeFrames := by
  by_cases hg : p.nFreeFrames = 0 ∨ p.nFreeFrames < n
  · exfalso
    apply hne
    rw [get_frames, if_pos hg]
  · have hfn : n ≤ p.nFreeFrames := by
      rcases Nat.lt_or_ge p.nFreeFrames n with h | h
      · exact absurd (Or.inr h) hg
      · exact h
    rw [get_frames_guard_false hg] at hne ⊢
    rcases scanGo_spec p n hn hfn hfw hb (p.nframes - 1) 0 0 0 (by omega) (by omega)
        (by omega) (fun k h1 h2 => absurd h2 (by omega)) (Or.inl rfl)
        (fun h => absurd h (by omega)) (fun h hh => absurd hh (by omega)) with
      hfail | hsucc
    · rw [hfail.1] at hne
      exact absurd rfl hne
    · obtain ⟨h0, hh1, hh2, hh3, hh4, hh5, hh6, hh7⟩ := hsucc
      exact ⟨h0, hh4, by omega, hh2, hh3, hh5, hh6, hh7⟩

/-- Witness for get_frames_success_spec: on a four-frame pool at base 5 whose
offsets 1 to 3 are FREE, get_frames(2) returns a nonzero value and the
conclusion holds. -/
theorem get_frames_success_spec_witness :
    (get_frames cpool3 2).2 ≠ 0 ∧
    (∃ h0,
      (get_frames cpool3 2).2 = cpool3.base_frame_no + h0 ∧
      h0 + 2 ≤ cpool3.nframes ∧
      (∀ k, k < 2 → cpool3.bitmap (h0 + k) = FREE) ∧
      (∀ h1, h1 < h0 → ∃ k, k < 2 ∧ cpool3.bitmap (h1 + k) ≠ FREE) ∧
      (get_frames cpool3 2).1.bitmap h0 = HEAD ∧
      (∀ k, 1 ≤ k → k < 2 → (get_frames cpool3 2).1.bitmap (h0 + k) = ALLOC) ∧
      (get_frames cpool3 2).1.nFreeFrames + 2 = cpool3.nFreeFrames) :=
  ⟨by decide,
    get_frames_success_spec cpool3 2 (by decide) (by decide) (by decide) (by decide)
      (by decide)⟩

/-- C4 counterexample: the claim says get_frames(0) always returns 0, but on a
pool constructed over frames 7 to 10 with a self-hosted info frame (whose
offset-0 byte is then not FREE), get_frames(0) returns the nonzero frame
number 7, refuting the n = 0 clause. -/
theorem get_frames_zero_request_nonzero :
    Option.map (fun p => (get_frames p 0).2) (construct (fun _ => 0) 7 4 0 0)
      = some 7 := by
  decide

/-- C4 amended: for every pool and every n ≥ 1, get_frames(n) returns the
sentinel 0 whenever nFreeFrames < n or no run of n contiguous FREE frames
exists in the pool (the n = 0 clause of the original claim is dropped). -/
theorem get_frames_no_run_returns_zero (p : Pool) (n : Nat)
    (hn : 1 ≤ n) (hnf : 1 ≤ p.nframes)
    (hfw : p.nFreeFrames < U32) (hb : p.base_frame_no + p.nframes < U32)
    (hcond : p.nFreeFrames < n ∨
      ∀ h0, h0 + n ≤ p.nframes → ∃ k, k < n ∧ p.bitmap (h0 + k) ≠ FREE) :
    (get_frames p n).2 = 0 := by
  by_cases hg : p.nFreeFrames = 0 ∨ p.nFreeFrames < n
  · rw [get_frames, if_pos hg]
  · have hfn : n ≤ p.nFreeFrames := by
      rcases Nat.lt_or_ge p.nFreeFrames n with h | h
      · exact absurd (Or.inr h) hg
      · exact h
    have hcond2 : ∀ h0, h0 + n ≤ p.nframes → ∃ k, k < n ∧ p.bitmap (h0 + k) ≠ FREE := by
      rcases hcond with hcond | hcond
      · exact absurd (Or.inr hcond) hg
      · exact hcond
    rw [get_frames_guard_false hg]
    rcases scanGo_spec p n hn hfn hfw hb (p.nframes - 1) 0 0 0 (by omega) (by omega)
        (by omega) (fun k h1 h2 => absurd h2 (by omega)) (Or.inl rfl)
        (fun h => absurd h (by omega)) (fun h hh => absurd hh (by omega)) with
      hfail | hsucc
    · rw [hfail.1]
    · obtain ⟨h0, hh1, hh2, _⟩ := hsucc
      obtain ⟨k, hk, hkne⟩ := hcond2 h0 (by omega)
      exact absurd (hh2 k hk) hkne

/-- Witness for get_frames_no_run_returns_zero: a pool with two free frames
refuses a request for three. -/
theorem get_frames_no_run_returns_zero_witness :
    cpool4.nFreeFrames < 3 ∧ (get_frames cpool4 3).2 = 0 :=
  ⟨by decide,
    get_frames_no_run_returns_zero cpool4 3 (by decide) (by decide) (by decide)
      (by decide) (Or.inl (by decide))⟩

/-- C5: evaluation at the failing input.  After allocating the first two
frames of a fully free four-frame pool, the only remaining run of two FREE
frames sits at offsets 2 and 3, ending at the final frame of the pool; the
claim says get_frames(2) must find it and return 3, but the scan loop
`for (i = 0; i < nframes - 1; i++)` never examines the final frame and the
call returns 0 despite two frames being counted free. -/
theorem get_frames_misses_final_run :
    Option.map
      (fun q => ((get_frames q 2).2, q.nFreeFrames, q.nframes, q.bitmap 2, q.bitmap 3))
      c5pool = some (0, 2, 4, FREE, FREE) := by
  decide

/-- C10 counterexample: on a pool with base_frame_no = 0 (all four frames
FREE, info stored externally), get_frames(1) finds the run at offset 0 and
returns base + 0 = 0 — the failure sentinel — while marking offset 0
HEAD_OF_SEQUENCE and decrementing nFreeFrames from 3 to 2, so a call that
returns 0 is not always mutation-free. -/
theorem get_frames_zero_mutates_at_base_zero :
    Option.map
      (fun p => ((get_frames p 1).2, p.nFreeFrames, (get_frames p 1).1.nFreeFrames,
        p.bitmap 0, (get_frames p 1).1.bitmap 0))
      (construct (fun _ => 0) 0 4 100 1) = some (0, 3, 2, FREE, HEAD) := by
  decide

/-- C10 amended: for every pool whose base frame number is at least 1 and
every n ≥ 1, whenever get_frames(n) returns 0 the pool state (bitmap and
nFreeFrames) is exactly as it was before the call; the restriction to nonzero
base is forced by the counterexample at base_frame_no = 0. -/
theorem get_frames_zero_no_mutation (p : Pool) (n : Nat)
    (hbase : 1 ≤ p.base_frame_no) (hn : 1 ≤ n) (hnf : 1 ≤ p.nframes)
    (hfw : p.nFreeFrames < U32) (hb : p.base_frame_no + p.nframes < U32)
    (hz : (get_frames p n).2 = 0) :
    (get_frames p n).1 = p := by
  by_cases hg : p.nFreeFrames = 0 ∨ p.nFreeFrames < n
  · rw [get_frames, if_pos hg]
  · have hfn : n ≤ p.nFreeFrames := by
      rcases Nat.lt_or_ge p.nFreeFrames n with h | h
      · exact absurd (Or.inr h) hg
      · exact h
    rw [get_frames_guard_false hg] at hz ⊢
    rcases scanGo_spec p n hn hfn hfw hb (p.nframes - 1) 0 0 0 (by omega) (by omega)
        (by omega) (fun k h1 h2 => absurd h2 (by omega)) (Or.inl rfl)
        (fun h => absurd h (by omega)) (fun h hh => absurd hh (by omega)) with
      hfail | hsucc
    · rw [hfail.1]
    · obtain ⟨h0, _, _, _, hval, _⟩ := hsucc
      rw [hval] at hz
      exact absurd hz (by omega)

/-- Witness for get_frames_zero_no_mutation: a pool with two free frames and
base 1 returns 0 for a request of five frames and is left unchanged. -/
theorem get_frames_zero_no_mutation_witness :
    (get_frames cpool4 5).2 = 0 ∧ (get_frames cpool4 5).1 = cpool4 :=
  ⟨by decide,
    get_frames_zero_no_mutation cpool4 5 (by decide) (by decide) (by decide)
      (by decide) (by decide) (by decide)⟩

/-- C2: evaluation at the failing input.  Constructing a pool over frames 1 to
4 with a self-hosted info frame and n_info_frames = 1 leaves nFreeFrames = 2
while 3 frames are in state FREE: the constructor marks the info frame with
the byte 0xFF (FREE) instead of an allocated state while still decrementing
the counter, so the cached counter does not equal the number of FREE frames
immediately after construction. -/
theorem construct_free_count_mismatch :
    Option.map (fun p => (p.nFreeFrames, countFree p)) (construct (fun _ => 0) 1 4 0 1)
      = some (2, 3) := by
  decide

/-- C1: evaluation at the failing input.  On a pool whose offset 0 is
HEAD_OF_SEQUENCE and offsets 1 to 3 are FREE, release(base + 0) should set
offset 0 FREE and stop immediately at offset 1, which is already FREE.
Instead the walk guard `bitmap[pos] != 0xFF || bitmap[pos] != 0x77` is a
tautology, so the call never returns for any iteration bound, and after 10
iterations it has already overwritten offset 7, past the last frame of the
four-frame pool. -/
theorem release_overruns_free_boundary :
    relPool.bitmap 0 = HEAD ∧ relPool.bitmap 1 = FREE ∧
    (∀ fuel, (release_frames [relPool] 1 fuel).2 = false) ∧
    relPool.bitmap 7 = 0 ∧ (releaseInPool relPool 1 10).1.bitmap 7 = FREE := by
  refine ⟨by decide, by decide, ?_, by decide, by decide⟩
  intro fuel
  have hom : ownerMatch relPool 1 = true := by decide
  simp [release_frames, hom, releaseInPool_not_done]

/-- C6: evaluation at the failing input.  The claim says release of a frame
number owned by no registered pool fails fatally and never silently returns,
but release_frames contains no assert at all: with the single registered pool
covering frames 1 to 4, release(100) walks off the pool list and returns
normally, leaving the registry unchanged. -/
theorem release_unowned_silent (fuel : Nat) :
    release_frames [relPool] 100 fuel = ([relPool], true) := by
  have hom : ownerMatch relPool 100 = false := by decide
  simp [release_frames, hom]

/-- C7: evaluation at the failing input.  On a fully free four-frame pool at
base 1, get_frames(1) succeeds and returns f = 1 with nFreeFrames dropping
from 4 to 3; the claim says release(1) then restores the counter, but the
release call never returns for any iteration bound (its walk loop guard is a
tautology), so the round trip never completes. -/
theorem round_trip_release_diverges :
    rtAlloc.2 = 1 ∧ rtPool.nFreeFrames = 4 ∧ rtAlloc.1.nFreeFrames = 3 ∧
    (∀ fuel, (release_frames [rtAlloc.1] rtAlloc.2 fuel).2 = false) := by
  refine ⟨by decide, by decide, by decide, ?_⟩
  intro fuel
  have hom : ownerMatch rtAlloc.1 rtAlloc.2 = true := by decide
  simp [release_frames, hom, releaseInPool_not_done]

/-- C8: evaluation at the failing input.  Pools B over frames 0 to 9 and A
over frames 10 to 19 are registered in that order; frame 10 lies in the range
of A and not in the range of B, yet the ownership test of release_frames uses
the inclusive bound first_frame_no <= base + nframes, so release(10) is routed
to B: after one simulated loop iteration B carries nFreeFrames 7 instead of 5
and the byte at offset 10 of the B region has been overwritten to FREE, while
A is untouched. -/
theorem release_mutates_foreign_pool :
    poolA.base_frame_no ≤ 10 ∧ 10 < poolA.base_frame_no + poolA.nframes ∧
    poolB.base_frame_no + poolB.nframes ≤ 10 ∧
    poolB.nFreeFrames = 5 ∧ poolB.bitmap 10 = 0 ∧
    List.map Pool.nFreeFrames (release_frames [poolB, poolA] 10 1).1 = [7, 9] ∧
    (List.headD (release_frames [poolB, poolA] 10 1).1 poolB).bitmap 10 = FREE := by
  decide

/-- C9: needed_info_frames is the pure ceiling n / FRAME_SIZE rounded up: it
equals (n + FRAME_SIZE - 1) / FRAME_SIZE, its result times FRAME_SIZE covers
n, and it is the least such count. -/
theorem needed_info_frames_is_ceil (n : Nat) :
    needed_info_frames n = (n + FRAME_SIZE - 1) / FRAME_SIZE ∧
    n ≤ FRAME_SIZE * needed_info_frames n ∧
    ∀ m, n ≤ FRAME_SIZE * m → needed_info_frames n ≤ m := by
  simp only [needed_info_frames, FRAME_SIZE]
  by_cases h : n % 4096 > 0
  · rw [if_pos h]
    refine ⟨by omega, by omega, fun m hm => by omega⟩
  · rw [if_neg h]
    refine ⟨by omega, by omega, fun m hm => by omega⟩

end ContFramePool
